import Mathlib

/-!
# FalconPass — verification of the client-side crypto core and vault service

Shallow embedding of `src/frontend/src/crypto/index.ts` and of the vault
service (`encryptVaultEntry` / `decryptVaultEntry` / `getVaultEntries` /
`importVault` and friends).

Modelling conventions:
* A byte string (`Uint8Array`) is a `List Nat`.
* External libraries (libsodium primitives, `argon2-browser`, the JS
  built-ins `JSON.parse` and `TextEncoder`/`TextDecoder` hidden behind
  `sodium.from_string` / `sodium.to_string`) are not code of this
  repository; they are modelled as explicit parameters, so every theorem
  quantifies over all behaviours the external library could have, with the
  library's documented contracts (e.g. decode ∘ encode = id) as explicit
  hypotheses.
* JavaScript exceptions are modelled with `Except String`, carrying the
  exact message the code passes to `new Error(...)`.
-/

namespace FalconPass

/-- `sodium.crypto_secretbox_easy` / `open_easy` model: a stream cipher
(keystream indexed by key and nonce, combined with the message by XOR)
plus a 16-byte one-time authenticator computed over the raw cipher bytes.
The functions themselves are parameters: theorems quantify over them. -/
structure SecretboxModel where
  /-- keystream byte `i` for a given key and nonce -/
  stream : List Nat → List Nat → Nat → Nat
  /-- authenticator over (key, nonce, raw cipher bytes) -/
  mac : List Nat → List Nat → List Nat → List Nat
  /-- libsodium's `crypto_secretbox_MACBYTES = 16` -/
  mac_len : ∀ k n c, (mac k n c).length = 16

/-- XOR a message with the keystream starting at index `i`. -/
def xorKeystream (s : Nat → Nat) : Nat → List Nat → List Nat
  | _, [] => []
  | i, b :: bs => (b ^^^ s i) :: xorKeystream s (i + 1) bs

/-- `crypto_secretbox_easy(m, n, k)`: tag followed by the XSalsa20-encrypted
message (tag-first layout, as in libsodium's easy interface). -/
def crypto_secretbox_easy (M : SecretboxModel) (m n k : List Nat) : List Nat :=
  let c := xorKeystream (M.stream k n) 0 m
  M.mac k n c ++ c

/-- `crypto_secretbox_open_easy(ct, n, k)`: `none` models the thrown
"incorrect secret key…" error on short input or tag mismatch. -/
def crypto_secretbox_open_easy (M : SecretboxModel) (ct n k : List Nat) :
    Option (List Nat) :=
  if ct.length < 16 then none
  else
    let tag := ct.take 16
    let c := ct.drop 16
    if M.mac k n c = tag then some (xorKeystream (M.stream k n) 0 c)
    else none

/-- `sodium.from_string` / `sodium.to_string` (UTF-8 codec), as external
parameters; `dec` is partial because `to_string` throws on invalid UTF-8. -/
structure Utf8Codec where
  enc : String → List Nat
  dec : List Nat → Option String

/-- `sodium.to_base64` / `sodium.from_base64`, as external parameters;
`dec` is partial because `from_base64` throws on malformed input. -/
structure Base64Codec where
  enc : List Nat → String
  dec : String → Option (List Nat)

/-- Result type of `encryptData`. -/
structure EncryptResult where
  ciphertext : List Nat
  nonce : List Nat
  deriving Repr, DecidableEq

/-- `encryptData(data, key)` from `crypto/index.ts`. The random nonce is
drawn from the entropy source `rnd` (`sodium.randombytes_buf`), modelled as
a parameter mapping a requested byte count to the bytes produced. -/
def encryptData (M : SecretboxModel) (U : Utf8Codec) (rnd : Nat → List Nat)
    (data : String) (key : List Nat) : EncryptResult :=
  let nonce := rnd 24
  let dataBytes := U.enc data
  let ciphertext := crypto_secretbox_easy M dataBytes nonce key
  ⟨ciphertext, nonce⟩

/-- `decryptData(ciphertext, nonce, key)` from `crypto/index.ts`: both a
failed `open_easy` and a `to_string` failure are caught by the single
`try`/`catch` and rethrown with one generic message. -/
def decryptData (M : SecretboxModel) (U : Utf8Codec)
    (ciphertext nonce key : List Nat) : Except String String :=
  match crypto_secretbox_open_easy M ciphertext nonce key with
  | some decrypted =>
    match U.dec decrypted with
    | some s => .ok s
    | none => .error "Decryption failed. Invalid key or corrupted data."
  | none => .error "Decryption failed. Invalid key or corrupted data."

/-- `Uint8Array.prototype.set(src, off)` on a buffer, for in-bounds writes. -/
def setAt (buf : List Nat) (off : Nat) (src : List Nat) : List Nat :=
  buf.take off ++ src ++ buf.drop (off + src.length)

/-- `serializeEncryptedData(ciphertext, nonce, salt)`: write salt, nonce and
ciphertext at their offsets into a fresh zeroed buffer, then Base64-encode. -/
def serializeEncryptedData (B : Base64Codec)
    (ciphertext nonce salt : List Nat) : String :=
  let combined :=
    setAt (setAt (setAt
        (List.replicate (salt.length + nonce.length + ciphertext.length) 0)
        0 salt)
      salt.length nonce)
    (salt.length + nonce.length) ciphertext
  B.enc combined

/-- Result type of `deserializeEncryptedData`. -/
structure DeserializedEnvelope where
  ciphertext : List Nat
  nonce : List Nat
  salt : List Nat
  deriving Repr, DecidableEq

/-- `deserializeEncryptedData(serialized)`: Base64-decode (a decode failure
propagates as a thrown error), then slice at the fixed offsets
`0:16`, `16:40`, `40:end`. No length validation is performed. -/
def deserializeEncryptedData (B : Base64Codec) (serialized : String) :
    Except String DeserializedEnvelope :=
  match B.dec serialized with
  | none => .error "invalid input"
  | some combined =>
    .ok ⟨combined.drop (16 + 24), (combined.drop 16).take 24, combined.take 16⟩

/-- `argon2-browser`'s `ArgonType` enum. -/
inductive ArgonType where
  | Argon2d | Argon2i | Argon2id
  deriving Repr, DecidableEq

/-- The argument object the code passes to `argon2.hash`. -/
structure Argon2Call where
  pass : String
  salt : List Nat
  type : ArgonType
  time : Nat
  mem : Nat
  hashLen : Nat
  deriving Repr, DecidableEq

/-- `deriveKeyFromPassword(password, salt?)`: the external `argon2.hash` is a
parameter from call arguments to hash bytes, and `rnd` is
`sodium.randombytes_buf`. Returns `(key, salt)`. -/
def deriveKeyFromPassword (argon2hash : Argon2Call → List Nat)
    (rnd : Nat → List Nat) (password : String) (saltArg : Option (List Nat)) :
    List Nat × List Nat :=
  let salt := match saltArg with
    | none => rnd 16
    | some s => s
  let result := argon2hash ⟨password, salt, ArgonType.Argon2id, 3, 65536, 32⟩
  (result, salt)

/-- The options object of `generatePassword`, with its JS default values. -/
structure PasswordOptions where
  uppercase : Bool := true
  lowercase : Bool := true
  numbers : Bool := true
  symbols : Bool := true
  deriving Repr, DecidableEq

def uppercaseChars : List Char := "ABCDEFGHIJKLMNOPQRSTUVWXYZ".data

def lowercaseChars : List Char := "abcdefghijklmnopqrstuvwxyz".data

def numberChars : List Char := "0123456789".data

def symbolChars : List Char := "!@#$%^&*()_+-=[]\x7b\x7d|;:,.<>?".data

/-- The `charset` string built by `generatePassword`, including the fallback
to alphanumeric when every flag is false. -/
def effectiveCharset (options : PasswordOptions) : List Char :=
  let charset :=
    (if options.uppercase then uppercaseChars else []) ++
    (if options.lowercase then lowercaseChars else []) ++
    (if options.numbers then numberChars else []) ++
    (if options.symbols then symbolChars else [])
  if charset = [] then uppercaseChars ++ lowercaseChars ++ numberChars
  else charset

/-- `generatePassword(length, options)`: draw `length * 2` random bytes and
map byte `i` (for `i < length`) to `charset[randomBytes[i] % charset.length]`. -/
def generatePassword (rnd : Nat → List Nat) (length : Nat)
    (options : PasswordOptions) : String :=
  let charset := effectiveCharset options
  let randomBytes := rnd (length * 2)
  String.mk ((randomBytes.take length).map
    (fun b => charset.getD (b % charset.length) 'A'))

/-! ## Vault service (`vault.ts`, shipped as `src/unnamed/part_003`) -/

/-- The frontend `VaultEntry` type. Optional JS fields are `Option`s;
a field absent from the decrypted JSON is `none`. -/
structure VaultEntry where
  id : String
  name : String
  username : Option String := none
  password : Option String := none
  url : Option String := none
  notes : Option String := none
  category : Option String := none
  tags : Option (List String) := none
  favorite : Bool
  createdAt : String
  updatedAt : String
  deriving Repr, DecidableEq

/-- The frontend `EncryptedVaultEntry` type. A JSON field that is absent or
empty (falsy for the `||` defaults in `importVault`) is modelled as `""`. -/
structure EncryptedVaultEntry where
  id : String
  encryptedData : String
  createdAt : String
  updatedAt : String
  deriving Repr, DecidableEq

/-- `encryptVaultEntry(entry, key, salt)`: the external `JSON.stringify` on
the entry is the parameter `stringifyEntry`. -/
def encryptVaultEntry (M : SecretboxModel) (U : Utf8Codec) (B : Base64Codec)
    (stringifyEntry : VaultEntry → String) (rnd : Nat → List Nat)
    (entry : VaultEntry) (key salt : List Nat) : EncryptedVaultEntry :=
  let entryJson := stringifyEntry entry
  let r := encryptData M U rnd entryJson key
  let encryptedData := serializeEncryptedData B r.ciphertext r.nonce salt
  ⟨entry.id, encryptedData, entry.createdAt, entry.updatedAt⟩

/-- `decryptVaultEntry(encryptedEntry, key)`: deserialize, decrypt, parse the
JSON (external `JSON.parse`, the parameter `parseEntry`), then override `id`,
`createdAt` and `updatedAt` with the wrapper's values. Every failure in the
`try` block is caught and rethrown with one generic message. -/
def decryptVaultEntry (M : SecretboxModel) (U : Utf8Codec) (B : Base64Codec)
    (parseEntry : String → Option VaultEntry)
    (encryptedEntry : EncryptedVaultEntry) (key : List Nat) :
    Except String VaultEntry :=
  match deserializeEncryptedData B encryptedEntry.encryptedData with
  | .error _ => .error "Failed to decrypt vault entry"
  | .ok env =>
    match decryptData M U env.ciphertext env.nonce key with
    | .error _ => .error "Failed to decrypt vault entry"
    | .ok decryptedJson =>
      match parseEntry decryptedJson with
      | none => .error "Failed to decrypt vault entry"
      | some entry =>
        .ok { entry with
              id := encryptedEntry.id
              createdAt := encryptedEntry.createdAt
              updatedAt := encryptedEntry.updatedAt }

/-- The placeholder entry `getVaultEntries` substitutes for an entry whose
decryption failed. -/
def listPlaceholder (e : EncryptedVaultEntry) : VaultEntry :=
  { id := e.id, name := "🔒 Encrypted Entry", favorite := false,
    createdAt := e.createdAt, updatedAt := e.updatedAt }

/-- An `ApiResponse<T>` from the api service. -/
structure ApiResponse (α : Type) where
  data : Option α := none
  error : Option String := none

/-- `getVaultEntries(key)`: the awaited `apiService.getVaultEntries()`
response is passed as an argument. Each entry is decrypted inside its own
`try`/`catch`; a failure yields the placeholder instead of aborting. -/
def getVaultEntries (M : SecretboxModel) (U : Utf8Codec) (B : Base64Codec)
    (parseEntry : String → Option VaultEntry)
    (response : ApiResponse (List EncryptedVaultEntry)) (key : List Nat) :
    List VaultEntry :=
  match response.error, response.data with
  | some _, _ => []
  | none, none => []
  | none, some entries =>
    entries.map (fun e =>
      match decryptVaultEntry M U B parseEntry e key with
      | .ok v => v
      | .error _ => listPlaceholder e)

/-- The parsed shape `importVault` reads off `JSON.parse(jsonData)`:
a `format` tag and a list of encrypted entries. An absent `format` field is
modelled as a string different from every real tag. -/
structure ImportArchive where
  format : String
  entries : List EncryptedVaultEntry
  deriving Repr, DecidableEq

/-- The placeholder entry `importVault` substitutes for an entry whose
decryption failed; `x || y` defaults are modelled as `if x = "" then y`. -/
def importPlaceholder (now : String) (e : EncryptedVaultEntry) : VaultEntry :=
  { id := if e.id = "" then "unknown" else e.id,
    name := "🔒 Encrypted Import Entry", favorite := false,
    createdAt := if e.createdAt = "" then now else e.createdAt,
    updatedAt := if e.updatedAt = "" then now else e.updatedAt }

/-- `importVault(jsonData, key)`: parse (external `JSON.parse`, the
parameter `parseArchive`; `none` models a parse exception), check the
`format` tag, then decrypt each entry with a per-entry `try`/`catch`.
The outer `catch` collapses the parse failure and the format failure into
the same generic rethrown error. `now` models `new Date().toISOString()`. -/
def importVault (M : SecretboxModel) (U : Utf8Codec) (B : Base64Codec)
    (parseArchive : String → Option ImportArchive)
    (parseEntry : String → Option VaultEntry) (now : String)
    (jsonData : String) (key : List Nat) : Except String (List VaultEntry) :=
  match parseArchive jsonData with
  | none => .error "Failed to import vault: Invalid format"
  | some importData =>
    if importData.format ≠ "falconpass-export" then
      .error "Failed to import vault: Invalid format"
    else
      .ok (importData.entries.map (fun e =>
        match decryptVaultEntry M U B parseEntry e key with
        | .ok v => v
        | .error _ => importPlaceholder now e))

/-! ## Concrete instantiations of the external parameters

Used only to witness theorems at concrete inputs; each satisfies the
documented contract (decode inverts encode) on the inputs where it is used. -/

/-- A concrete secretbox model: constant keystream and constant tag. -/
def M0 : SecretboxModel where
  stream := fun _ _ _ => 7
  mac := fun _ _ _ => List.replicate 16 0
  mac_len := fun _ _ _ => List.length_replicate 16 0

/-- A concrete injective string/byte codec standing in for UTF-8. -/
def U0 : Utf8Codec where
  enc := fun s => s.data.map Char.toNat
  dec := fun l => some (String.mk (l.map Char.ofNat))

/-- A concrete injective byte/string codec standing in for Base64. -/
def B0 : Base64Codec where
  enc := fun l => String.mk (l.map Char.ofNat)
  dec := fun s => some (s.data.map Char.toNat)

/-- A concrete entropy source: `n` requested bytes, all zero. -/
def rnd0 : Nat → List Nat := fun n => List.replicate n 0

/-- A concrete `argon2.hash` behaviour: `hashLen` bytes of value 5. -/
def argon2hash0 : Argon2Call → List Nat := fun c => List.replicate c.hashLen 5

/-- A concrete archive with an unrecognized format tag. -/
def archiveC4 : ImportArchive :=
  ⟨"not-falconpass", [⟨"e1", "blob", "t1", "t2"⟩]⟩

/-- A concrete `JSON.parse` behaviour: one input is malformed JSON, every
other input parses to the unrecognized-format archive. -/
def parseArchiveC4 : String → Option ImportArchive := fun s =>
  if s = "not json" then none else some archiveC4

/-- A concrete entry parser that never succeeds. -/
def parseEntryNone : String → Option VaultEntry := fun _ => none

/-- An envelope that decrypts successfully under `M0`, `U0`, `B0`:
16-byte salt, 24-byte nonce, then a valid 16-byte tag over an empty
message. -/
def goodEnvelope : String :=
  B0.enc (List.replicate 16 1 ++ List.replicate 24 2 ++ List.replicate 16 0)

/-- An encrypted entry that decrypts successfully under `M0`, `U0`, `B0`. -/
def eGood : EncryptedVaultEntry := ⟨"good-id", goodEnvelope, "cA", "uA"⟩

/-- An encrypted entry whose envelope is too short to open: decryption
fails. -/
def eBad : EncryptedVaultEntry := ⟨"bad-id", "", "cB", "uB"⟩

/-- The plaintext entry recovered from `eGood`'s payload. -/
def entryW : VaultEntry :=
  { id := "inner-id", name := "example", favorite := true,
    createdAt := "innerC", updatedAt := "innerU" }

/-- A concrete entry parser: the empty JSON payload parses to `entryW`. -/
def parseEntryW : String → Option VaultEntry := fun s =>
  if s = "" then some entryW else none

/-- A concrete well-formatted archive holding `eGood` and `eBad`. -/
def archiveW : ImportArchive := ⟨"falconpass-export", [eGood, eBad]⟩

/-- A concrete `JSON.parse` behaviour that always yields `archiveW`. -/
def parseArchiveW : String → Option ImportArchive := fun _ => some archiveW

/-- A concrete successful api response holding `eGood` and `eBad`. -/
def respW : ApiResponse (List EncryptedVaultEntry) :=
  ⟨some [eGood, eBad], none⟩

/-! ## Helper lemmas -/

/-- The charset `generatePassword` indexes into is never empty: either some
flag contributed characters, or the alphanumeric fallback is used. -/
theorem effectiveCharset_ne_nil (options : PasswordOptions) :
    effectiveCharset options ≠ [] := by
  obtain ⟨u, l, n, s⟩ := options
  cases u <;> cases l <;> cases n <;> cases s <;> decide

theorem xorKeystream_involutive (s : Nat → Nat) :
    ∀ (i : Nat) (bs : List Nat), xorKeystream s i (xorKeystream s i bs) = bs := by
  intro i bs
  induction bs generalizing i with
  | nil => rfl
  | cons b bs ih => simp [xorKeystream, Nat.xor_cancel_right, ih]

/-- `open_easy` inverts `secretbox_easy` for every key, nonce and message,
whatever the keystream and authenticator functions are. -/
theorem crypto_secretbox_open_easy_easy (M : SecretboxModel)
    (m n k : List Nat) :
    crypto_secretbox_open_easy M (crypto_secretbox_easy M m n k) n k = some m := by
  unfold crypto_secretbox_easy crypto_secretbox_open_easy
  have hmac := M.mac_len k n (xorKeystream (M.stream k n) 0 m)
  have hlen : ¬ (M.mac k n (xorKeystream (M.stream k n) 0 m) ++
      xorKeystream (M.stream k n) 0 m).length < 16 := by
    simp [hmac]
  simp only [hlen, if_false, List.take_left' hmac, List.drop_left' hmac,
    if_pos rfl, xorKeystream_involutive]
  simp

/-- The buffer built by `serializeEncryptedData` with three `set` calls is
the plain concatenation `salt ++ nonce ++ ciphertext`. -/
theorem serializeEncryptedData_eq (B : Base64Codec)
    (ciphertext nonce salt : List Nat) :
    serializeEncryptedData B ciphertext nonce salt =
      B.enc (salt ++ nonce ++ ciphertext) := by
  have e1 : setAt
      (List.replicate (salt.length + nonce.length + ciphertext.length) 0)
      0 salt =
      salt ++ List.replicate (nonce.length + ciphertext.length) 0 := by
    unfold setAt
    rw [List.take_zero, List.nil_append, Nat.zero_add, List.drop_replicate]
    congr 2
    omega
  have e2 : setAt
      (salt ++ List.replicate (nonce.length + ciphertext.length) 0)
      salt.length nonce =
      salt ++ nonce ++ List.replicate ciphertext.length 0 := by
    unfold setAt
    rw [List.take_left' rfl, List.drop_append, List.drop_replicate]
    congr 2
    omega
  have e3 : setAt (salt ++ nonce ++ List.replicate ciphertext.length 0)
      (salt.length + nonce.length) ciphertext =
      salt ++ nonce ++ ciphertext := by
    unfold setAt
    rw [show salt.length + nonce.length = (salt ++ nonce).length by simp,
      List.take_left' rfl,
      show (salt ++ nonce).length + ciphertext.length =
        (salt ++ nonce).length + ciphertext.length from rfl,
      List.drop_append, List.drop_eq_nil_of_le (by simp), List.append_nil]
  unfold serializeEncryptedData
  rw [e1, e2, e3]

/-! ## Claim theorems -/

/-- C1: for every UTF-8 plaintext string `p` and every key `k`, opening the
output of seal with the same key returns exactly the original string:
`decryptData c nonce k = p` where `(c, nonce) = encryptData p k`. Quantified
over every secretbox primitive, every entropy source, and every UTF-8 codec
satisfying the decode-inverts-encode contract on `p`. -/
theorem C1_encrypt_decrypt_roundtrip (M : SecretboxModel) (U : Utf8Codec)
    (rnd : Nat → List Nat) (p : String) (k : List Nat)
    (hU : U.dec (U.enc p) = some p) :
    decryptData M U (encryptData M U rnd p k).ciphertext
      (encryptData M U rnd p k).nonce k = .ok p := by
  unfold encryptData decryptData
  simp only [crypto_secretbox_open_easy_easy, hU]

theorem C1_encrypt_decrypt_roundtrip_witness :
    U0.dec (U0.enc "hunter2") = some "hunter2" ∧
    decryptData M0 U0
      (encryptData M0 U0 rnd0 "hunter2" (List.replicate 32 0)).ciphertext
      (encryptData M0 U0 rnd0 "hunter2" (List.replicate 32 0)).nonce
      (List.replicate 32 0) = .ok "hunter2" :=
  ⟨by decide,
   C1_encrypt_decrypt_roundtrip M0 U0 rnd0 "hunter2" (List.replicate 32 0)
     (by decide)⟩

/-- C2: for every 16-byte salt `s`, 24-byte nonce `n` and byte string `c`,
deserializing the serialized envelope returns the exact original triple. -/
theorem C2_serialize_deserialize_roundtrip (B : Base64Codec)
    (c n s : List Nat) (hs : s.length = 16) (hn : n.length = 24)
    (hB : B.dec (B.enc (s ++ n ++ c)) = some (s ++ n ++ c)) :
    deserializeEncryptedData B (serializeEncryptedData B c n s) =
      .ok ⟨c, n, s⟩ := by
  have h1 : (s ++ n ++ c).take 16 = s := by
    rw [List.append_assoc]; exact List.take_left' hs
  have h2 : (s ++ n ++ c).drop 16 = n ++ c := by
    rw [List.append_assoc]; exact List.drop_left' hs
  have h3 : (s ++ n ++ c).drop (16 + 24) = c := by
    rw [List.append_assoc, show (16 : Nat) + 24 = s.length + n.length by omega,
      List.drop_append, List.drop_left' rfl]
  rw [serializeEncryptedData_eq]
  unfold deserializeEncryptedData
  rw [hB]
  simp only [h1, h2, h3, List.take_left' hn]

theorem C2_serialize_deserialize_roundtrip_witness :
    (List.replicate 16 1 : List Nat).length = 16 ∧
    (List.replicate 24 2 : List Nat).length = 24 ∧
    deserializeEncryptedData B0
      (serializeEncryptedData B0 [9, 8, 7] (List.replicate 24 2)
        (List.replicate 16 1)) =
      .ok ⟨[9, 8, 7], List.replicate 24 2, List.replicate 16 1⟩ :=
  ⟨by decide, by decide,
   C2_serialize_deserialize_roundtrip B0 [9, 8, 7] (List.replicate 24 2)
     (List.replicate 16 1) (by decide) (by decide) (by decide)⟩

/-- C3 counterexample: the empty string Base64-decodes to 0 bytes — fewer
than 40 — yet `deserializeEncryptedData` returns a `(ciphertext, nonce,
salt)` triple instead of failing: there is no length check (and no
`MalformedEnvelopeError` anywhere in the code). -/
theorem C3_short_input_not_rejected :
    B0.dec "" = some [] ∧
    deserializeEncryptedData B0 "" = .ok ⟨[], [], []⟩ := by
  constructor <;> rfl

/-- C3 (amended): `deserializeEncryptedData` performs no length validation:
for every input whose Base64 decode succeeds with fewer than 40 bytes it
returns a truncated triple — empty ciphertext, a salt of at most 16 bytes
and a nonce of fewer than 24 bytes — rather than failing. -/
theorem C3_short_input_truncated_triple (B : Base64Codec) (s : String)
    (bs : List Nat) (hdec : B.dec s = some bs) (hlen : bs.length < 40) :
    deserializeEncryptedData B s =
      .ok ⟨[], (bs.drop 16).take 24, bs.take 16⟩ ∧
    ((bs.drop 16).take 24).length < 24 ∧ (bs.take 16).length ≤ 16 := by
  refine ⟨?_, ?_, ?_⟩
  · unfold deserializeEncryptedData
    rw [hdec]
    have hnil : bs.drop (16 + 24) = [] := List.drop_eq_nil_of_le (by omega)
    simp only [hnil]
  · simp only [List.length_take, List.length_drop]
    omega
  · simp only [List.length_take]
    omega

theorem C3_short_input_truncated_triple_witness :
    B0.dec "abc" = some [97, 98, 99] ∧ ([97, 98, 99] : List Nat).length < 40 ∧
    deserializeEncryptedData B0 "abc" = .ok ⟨[], [], [97, 98, 99]⟩ ∧
    (([] : List Nat)).length < 24 :=
  ⟨by decide, by decide,
   by
    have h := C3_short_input_truncated_triple B0 "abc" [97, 98, 99]
      (by decide) (by decide)
    simpa using h.1,
   by decide⟩

/-- C6: the Base64 decoding of `serializeEncryptedData c n s` is exactly the
byte concatenation `s ++ n ++ c` — salt first, then nonce, then ciphertext —
for every salt, nonce and ciphertext and every Base64 codec whose decode
inverts its encode on that buffer. -/
theorem C6_serialized_layout (B : Base64Codec) (c n s : List Nat)
    (hB : B.dec (B.enc (s ++ n ++ c)) = some (s ++ n ++ c)) :
    B.dec (serializeEncryptedData B c n s) = some (s ++ n ++ c) := by
  rw [serializeEncryptedData_eq]
  exact hB

theorem C6_serialized_layout_witness :
    B0.dec (serializeEncryptedData B0 [5] [4] [3]) = some ([3] ++ [4] ++ [5]) :=
  C6_serialized_layout B0 [5] [4] [3] (by decide)

/-- C4 counterexample: an archive whose format tag is `"not-falconpass"`
makes `importVault` throw the generic untyped
`Error("Failed to import vault: Invalid format")` — the exact same error
value produced by a JSON parse failure — so no typed
`UnsupportedFormatError` distinguishes the unsupported-format case (no such
error class exists in the code). -/
theorem C4_generic_error_not_typed :
    importVault M0 U0 B0 parseArchiveC4 parseEntryNone "2024-01-01"
      "archive" (List.replicate 32 0) =
      .error "Failed to import vault: Invalid format" ∧
    importVault M0 U0 B0 parseArchiveC4 parseEntryNone "2024-01-01"
      "not json" (List.replicate 32 0) =
      .error "Failed to import vault: Invalid format" := by
  constructor <;> rfl

/-- C4 (amended): `importVault` rejects every archive whose format tag is
not `"falconpass-export"` without attempting to decrypt any entry — the
result is the same for every secretbox model, codec, entry parser and key —
but the failure is the generic rethrown
`Error("Failed to import vault: Invalid format")` shared with the JSON
parse-failure path, not a typed `UnsupportedFormatError`. -/
theorem C4_unknown_format_rejected_before_decrypting (M : SecretboxModel)
    (U : Utf8Codec) (B : Base64Codec)
    (parseArchive : String → Option ImportArchive)
    (parseEntry : String → Option VaultEntry) (now jsonData : String)
    (key : List Nat) (a : ImportArchive)
    (hpa : parseArchive jsonData = some a)
    (hfmt : a.format ≠ "falconpass-export") :
    importVault M U B parseArchive parseEntry now jsonData key =
      .error "Failed to import vault: Invalid format" := by
  unfold importVault
  rw [hpa]
  simp [hfmt]

theorem C4_unknown_format_rejected_before_decrypting_witness :
    parseArchiveC4 "archive" = some archiveC4 ∧
    archiveC4.format ≠ "falconpass-export" ∧
    importVault M0 U0 B0 parseArchiveC4 parseEntryW "2024-01-01" "archive"
      (List.replicate 32 0) = .error "Failed to import vault: Invalid format" :=
  ⟨by decide, by decide,
   C4_unknown_format_rejected_before_decrypting M0 U0 B0 parseArchiveC4
     parseEntryW "2024-01-01" "archive" (List.replicate 32 0) archiveC4
     (by decide) (by decide)⟩

/-- C7: `deriveKeyFromPassword` hands `argon2.hash` exactly the fixed
parameters Argon2id, time = 3, mem = 65536 KiB, hashLen = 32, and returns
that hash as the key together with the salt; when the salt argument is
omitted the returned salt is 16 fresh bytes from the entropy source. -/
theorem C7_argon2id_fixed_parameters (argon2hash : Argon2Call → List Nat)
    (rnd : Nat → List Nat) (password : String)
    (saltArg : Option (List Nat)) (hrnd : (rnd 16).length = 16) :
    (deriveKeyFromPassword argon2hash rnd password saltArg).1 =
      argon2hash
        ⟨password, (deriveKeyFromPassword argon2hash rnd password saltArg).2,
         ArgonType.Argon2id, 3, 65536, 32⟩ ∧
    (saltArg = none →
      (deriveKeyFromPassword argon2hash rnd password saltArg).2 = rnd 16 ∧
      (deriveKeyFromPassword argon2hash rnd password saltArg).2.length = 16) ∧
    ∀ s, saltArg = some s →
      (deriveKeyFromPassword argon2hash rnd password saltArg).2 = s := by
  cases saltArg <;> simp [deriveKeyFromPassword, hrnd]

theorem C7_argon2id_fixed_parameters_witness :
    (rnd0 16).length = 16 ∧
    (deriveKeyFromPassword argon2hash0 rnd0 "master" none).1 =
      argon2hash0
        ⟨"master", (deriveKeyFromPassword argon2hash0 rnd0 "master" none).2,
         ArgonType.Argon2id, 3, 65536, 32⟩ ∧
    (deriveKeyFromPassword argon2hash0 rnd0 "master" none).2 = rnd0 16 :=
  ⟨by decide,
   (C7_argon2id_fixed_parameters argon2hash0 rnd0 "master" none (by decide)).1,
   ((C7_argon2id_fixed_parameters argon2hash0 rnd0 "master" none
      (by decide)).2.1 rfl).1⟩

/-- Indexing with a default at an in-bounds position lands in the list. -/
theorem getD_mem_of_lt {α : Type} (l : List α) (i : Nat) (d : α)
    (h : i < l.length) : l.getD i d ∈ l := by
  show (l.get? i).getD d ∈ l
  rw [List.get?_eq_get h]
  exact List.get_mem l i h

/-- C8: `generatePassword` returns exactly `length` characters, each drawn
from the union of the selected character sets; with only `numbers` selected
the charset is exactly the digits 0–9, and with every flag false the
fallback alphanumeric charset is used instead of failing. -/
theorem C8_generatePassword_length_charset (rnd : Nat → List Nat)
    (len : Nat) (options : PasswordOptions)
    (hrnd : ∀ m, (rnd m).length = m) :
    (generatePassword rnd len options).length = len ∧
    (∀ ch ∈ (generatePassword rnd len options).data,
      ch ∈ effectiveCharset options) ∧
    effectiveCharset ⟨false, false, true, false⟩ = numberChars ∧
    effectiveCharset ⟨false, false, false, false⟩ =
      uppercaseChars ++ lowercaseChars ++ numberChars := by
  refine ⟨?_, ?_, by decide, by decide⟩
  · have hlen : (generatePassword rnd len options).length =
        (((rnd (len * 2)).take len).map (fun b =>
          (effectiveCharset options).getD
            (b % (effectiveCharset options).length) 'A')).length := rfl
    rw [hlen, List.length_map, List.length_take, hrnd]
    omega
  · intro ch hch
    have hdata : (generatePassword rnd len options).data =
        ((rnd (len * 2)).take len).map (fun b =>
          (effectiveCharset options).getD
            (b % (effectiveCharset options).length) 'A') := rfl
    rw [hdata] at hch
    obtain ⟨b, _, rfl⟩ := List.mem_map.mp hch
    exact getD_mem_of_lt _ _ _
      (Nat.mod_lt _ (List.length_pos.mpr (effectiveCharset_ne_nil options)))

theorem C8_generatePassword_length_charset_witness :
    (generatePassword rnd0 16 ⟨false, false, true, false⟩).length = 16 ∧
    (∀ ch ∈ (generatePassword rnd0 16 ⟨false, false, true, false⟩).data,
      ch ∈ effectiveCharset ⟨false, false, true, false⟩) ∧
    generatePassword rnd0 16 ⟨false, false, true, false⟩ =
      "0000000000000000" ∧
    generatePassword rnd0 8 ⟨false, false, false, false⟩ = "AAAAAAAA" :=
  ⟨(C8_generatePassword_length_charset rnd0 16 ⟨false, false, true, false⟩
      (fun m => by simp [rnd0])).1,
   (C8_generatePassword_length_charset rnd0 16 ⟨false, false, true, false⟩
      (fun m => by simp [rnd0])).2.1,
   by decide, by decide⟩

/-- C9: in the bulk operations `importVault` (over a well-formatted
archive's entries) and `getVaultEntries` (over a successful response's
entries), a decryption failure of one entry does not abort the operation:
the result has exactly one element per input entry, each successfully
decrypted entry appears decrypted, and each failing entry is replaced by
the respective placeholder record. -/
theorem C9_bulk_decrypt_failure_isolated (M : SecretboxModel)
    (U : Utf8Codec) (B : Base64Codec)
    (parseArchive : String → Option ImportArchive)
    (parseEntry : String → Option VaultEntry) (now jsonData : String)
    (key : List Nat) (a : ImportArchive)
    (resp : ApiResponse (List EncryptedVaultEntry))
    (es : List EncryptedVaultEntry)
    (hpa : parseArchive jsonData = some a)
    (hfmt : a.format = "falconpass-export")
    (herr : resp.error = none) (hdata : resp.data = some es) :
    (∃ l, importVault M U B parseArchive parseEntry now jsonData key =
        .ok l ∧
      l.length = a.entries.length ∧
      ∀ i : Nat, l[i]? = (a.entries[i]?).map (fun e =>
        match decryptVaultEntry M U B parseEntry e key with
        | .ok v => v
        | .error _ => importPlaceholder now e)) ∧
    (getVaultEntries M U B parseEntry resp key).length = es.length ∧
    ∀ i : Nat, (getVaultEntries M U B parseEntry resp key)[i]? =
      (es[i]?).map (fun e =>
        match decryptVaultEntry M U B parseEntry e key with
        | .ok v => v
        | .error _ => listPlaceholder e) := by
  have himp : importVault M U B parseArchive parseEntry now jsonData key =
      .ok (a.entries.map (fun e =>
        match decryptVaultEntry M U B parseEntry e key with
        | .ok v => v
        | .error _ => importPlaceholder now e)) := by
    unfold importVault
    rw [hpa]
    simp [hfmt]
  have hget : getVaultEntries M U B parseEntry resp key =
      es.map (fun e =>
        match decryptVaultEntry M U B parseEntry e key with
        | .ok v => v
        | .error _ => listPlaceholder e) := by
    unfold getVaultEntries
    rw [herr, hdata]
  refine ⟨⟨_, himp, by simp, fun i => by simp⟩,
    by rw [hget]; simp, fun i => by rw [hget]; simp⟩

theorem C9_bulk_decrypt_failure_isolated_witness :
    (∃ l, importVault M0 U0 B0 parseArchiveW parseEntryW "now" "file"
        (List.replicate 32 0) = .ok l ∧
      l.length = archiveW.entries.length) ∧
    (getVaultEntries M0 U0 B0 parseEntryW respW
      (List.replicate 32 0)).length = 2 ∧
    importVault M0 U0 B0 parseArchiveW parseEntryW "now" "file"
      (List.replicate 32 0) =
      .ok [{ entryW with
               id := "good-id", createdAt := "cA", updatedAt := "uA" },
           importPlaceholder "now" eBad] ∧
    getVaultEntries M0 U0 B0 parseEntryW respW (List.replicate 32 0) =
      [{ entryW with id := "good-id", createdAt := "cA", updatedAt := "uA" },
       listPlaceholder eBad] := by
  have h := C9_bulk_decrypt_failure_isolated M0 U0 B0 parseArchiveW
    parseEntryW "now" "file" (List.replicate 32 0) archiveW respW
    [eGood, eBad] rfl rfl rfl rfl
  refine ⟨?_, ?_, by rfl, by rfl⟩
  · obtain ⟨⟨l, hl, hlen, _⟩, _⟩ := h
    exact ⟨l, hl, hlen⟩
  · exact h.2.1

/-- C10: whenever decryption of an encrypted vault entry succeeds — the
envelope deserializes, the ciphertext opens to `js`, and `js` parses to the
plaintext entry `p` — `decryptVaultEntry` returns `p` with its `id`,
`createdAt` and `updatedAt` fields overridden by the encrypted wrapper's
values, all other fields taken from the decrypted plaintext. -/
theorem C10_wrapper_metadata_overrides (M : SecretboxModel) (U : Utf8Codec)
    (B : Base64Codec) (parseEntry : String → Option VaultEntry)
    (e : EncryptedVaultEntry) (key : List Nat)
    (env : DeserializedEnvelope) (js : String) (p : VaultEntry)
    (h1 : deserializeEncryptedData B e.encryptedData = .ok env)
    (h2 : decryptData M U env.ciphertext env.nonce key = .ok js)
    (h3 : parseEntry js = some p) :
    decryptVaultEntry M U B parseEntry e key =
      .ok { p with
            id := e.id, createdAt := e.createdAt, updatedAt := e.updatedAt }
      := by
  simp only [decryptVaultEntry, h1, h2, h3]

theorem C10_wrapper_metadata_overrides_witness :
    deserializeEncryptedData B0 eGood.encryptedData =
      .ok ⟨List.replicate 16 0, List.replicate 24 2, List.replicate 16 1⟩ ∧
    decryptData M0 U0 (List.replicate 16 0) (List.replicate 24 2)
      (List.replicate 32 9) = .ok "" ∧
    parseEntryW "" = some entryW ∧
    decryptVaultEntry M0 U0 B0 parseEntryW eGood (List.replicate 32 9) =
      .ok { entryW with
            id := "good-id", createdAt := "cA", updatedAt := "uA" } :=
  ⟨by rfl, by rfl, by rfl,
   C10_wrapper_metadata_overrides M0 U0 B0 parseEntryW eGood
     (List.replicate 32 9)
     ⟨List.replicate 16 0, List.replicate 24 2, List.replicate 16 1⟩
     "" entryW (by rfl) (by rfl) (by rfl)⟩

end FalconPass
